import Mathlib

/-!
Verification of the `GovernanceVoting` contract
(`src/elect/migrations/3_weighted_election.js`, the embedded Solidity source).

The contract is shallowly embedded: `uint256` values are modelled as `Nat`
(Solidity 0.8 checked subtraction is made explicit via an `Underflow` error;
the additions performed by the contract are modelled on unbounded naturals),
addresses are `Nat` with `0` playing the role of `address(0)`, storage
mappings are total functions with the all-zero default record, and every
external function returns `Except Err State`, with one error constructor per
distinct `require` message, checked in the source's evaluation order.
-/

namespace GovernanceVoting

/-! ## Data model, contract operations, reachability, and the
concrete states used by counterexamples and witnesses -/

/-- The `Phase` enum of the contract. -/
inductive Phase where
  | Setup
  | Voting
  | Finished
deriving DecidableEq, Repr

/-- One error constructor per distinct revert reason of the contract
(including the OpenZeppelin `Pausable` reverts and the checked-arithmetic
underflow revert of Solidity 0.8). -/
inductive Err where
  | Unauthorized            -- "Only admin can perform this action"
  | WrongPhase              -- "Action not allowed in current phase"
  | VotingNotActive         -- "Voting is not active"
  | VotingNotStarted        -- "Voting has not started yet"
  | VotingEnded             -- "Voting period has ended"
  | Paused                  -- "Pausable: paused"
  | NotPaused               -- "Pausable: not paused"
  | EmptyTitle              -- "Proposal title cannot be empty"
  | ZeroAddress             -- "Cannot whitelist/delegate to zero address"
  | ZeroWeight              -- "Weight must be greater than zero"
  | AdminVoter              -- "Admin cannot be a voter"
  | NoProposals             -- "Add at least one proposal first"
  | NoVoters                -- "Whitelist at least one voter first"
  | ZeroDuration            -- "Duration must be greater than zero"
  | NotYetExpired           -- "Voting period not yet ended"
  | NotWhitelisted          -- "You are not a whitelisted voter"
  | AlreadyVoted            -- "You have already voted"
  | SelfDelegation          -- "Cannot delegate to yourself"
  | DelegateNotWhitelisted  -- "Delegate is not a whitelisted voter"
  | NoDelegation            -- "You have not delegated"
  | Delegated               -- "You have delegated your vote"
  | InvalidProposal         -- "Invalid proposal ID"
  | NoVotingPower           -- "No voting power"
  | Underflow               -- Solidity 0.8 checked subtraction revert
deriving DecidableEq, Repr

/-- The `Voter` struct. `delegate = 0` encodes `address(0)` (no delegation). -/
structure Voter where
  whitelisted : Bool
  weight : Nat
  voted : Bool
  votedProposalId : Nat
  delegate : Nat
  delegatedWeight : Nat
deriving DecidableEq, Repr

/-- The all-zero default mapping value for `_voters`. -/
def defaultVoter : Voter :=
  { whitelisted := false, weight := 0, voted := false, votedProposalId := 0
    delegate := 0, delegatedWeight := 0 }

/-- The `Proposal` struct. -/
structure Proposal where
  title : String
  description : String
  voteCount : Nat
  rawVoteCount : Nat
deriving DecidableEq, Repr

/-- The contract's storage. `voters` models the `_voters` mapping;
`voterAddresses` models the `_voterAddresses` array; `paused` is the
inherited `Pausable` flag. -/
structure State where
  admin : Nat
  electionName : String
  phase : Phase
  votingStartTime : Nat
  votingEndTime : Nat
  proposals : List Proposal
  voters : Nat → Voter
  voterAddresses : List Nat
  paused : Bool

/-- One Newton/Babylonian step `(weight / y + y) / 2` with floor division,
as written in the body of the `while` loop of `calculateQuadraticVotes`. -/
def newtonStep (weight y : Nat) : Nat := (weight / y + y) / 2

/-- The `while (y < x) { x = y; y = (weight / y + y) / 2; }` loop of
`calculateQuadraticVotes`, returning the final `x`. -/
def babylonianLoop (weight x y : Nat) : Nat :=
  if _h : y < x then babylonianLoop weight y (newtonStep weight y) else x
termination_by x

/-- `calculateQuadraticVotes` from the source: shortcuts for `0` and `1`,
then the Babylonian loop started at `x = weight`, `y = (x + 1) / 2`. -/
def calculateQuadraticVotes (weight : Nat) : Nat :=
  if weight = 0 then 0
  else if weight = 1 then 1
  else babylonianLoop weight weight ((weight + 1) / 2)

/-- `_addProposal`: requires a non-empty title, then pushes a proposal with
both tallies zero. -/
def _addProposal (s : State) (title description : String) : Except Err State :=
  if title = "" then .error .EmptyTitle
  else .ok { s with proposals := s.proposals ++
    [{ title := title, description := description, voteCount := 0, rawVoteCount := 0 }] }

/-- `addProposal`: `onlyAdmin`, `inPhase(Setup)`, `whenNotPaused`, then
`_addProposal`. -/
def addProposal (s : State) (caller : Nat) (title description : String) :
    Except Err State :=
  if caller ≠ s.admin then .error .Unauthorized
  else if s.phase ≠ .Setup then .error .WrongPhase
  else if s.paused then .error .Paused
  else _addProposal s title description

/-- `whitelistVoter`: `onlyAdmin`, `inPhase(Setup)`, `whenNotPaused`; rejects
the zero address, zero weight and the admin; appends the address to
`voterAddresses` only when it is not already whitelisted; overwrites the
voter record with a fresh one carrying the given weight. -/
def whitelistVoter (s : State) (caller account weight : Nat) :
    Except Err State :=
  if caller ≠ s.admin then .error .Unauthorized
  else if s.phase ≠ .Setup then .error .WrongPhase
  else if s.paused then .error .Paused
  else if account = 0 then .error .ZeroAddress
  else if weight = 0 then .error .ZeroWeight
  else if account = s.admin then .error .AdminVoter
  else
    let addrs := if (s.voters account).whitelisted then s.voterAddresses
                 else s.voterAddresses ++ [account]
    let fresh : Voter := { whitelisted := true, weight := weight, voted := false,
                           votedProposalId := 0, delegate := 0, delegatedWeight := 0 }
    let voters' := fun a => if a = account then fresh else s.voters a
    .ok { s with voters := voters', voterAddresses := addrs }

/-- `startVoting`: `onlyAdmin`, `inPhase(Setup)`, `whenNotPaused`; requires a
proposal, a whitelisted voter and a positive duration; moves to `Voting` and
sets the window to `now .. now + durationInMinutes * 60` (`1 minutes` = 60
seconds). -/
def startVoting (s : State) (caller durationInMinutes now : Nat) :
    Except Err State :=
  if caller ≠ s.admin then .error .Unauthorized
  else if s.phase ≠ .Setup then .error .WrongPhase
  else if s.paused then .error .Paused
  else if s.proposals.length = 0 then .error .NoProposals
  else if s.voterAddresses.length = 0 then .error .NoVoters
  else if durationInMinutes = 0 then .error .ZeroDuration
  else .ok { s with phase := .Voting, votingStartTime := now,
                    votingEndTime := now + durationInMinutes * 60 }

/-- `closeVoting`: `onlyAdmin`, `inPhase(Voting)`, `whenNotPaused`; moves to
`Finished` (the winner is only read for the event, storage-wise the phase is
the sole change). -/
def closeVoting (s : State) (caller : Nat) : Except Err State :=
  if caller ≠ s.admin then .error .Unauthorized
  else if s.phase ≠ .Voting then .error .WrongPhase
  else if s.paused then .error .Paused
  else .ok { s with phase := .Finished }

/-- `finalizeIfExpired`: anyone may call; `inPhase(Voting)`, `whenNotPaused`,
requires `now > votingEndTime`; moves to `Finished`. -/
def finalizeIfExpired (s : State) (_caller now : Nat) : Except Err State :=
  if s.phase ≠ .Voting then .error .WrongPhase
  else if s.paused then .error .Paused
  else if now ≤ s.votingEndTime then .error .NotYetExpired
  else .ok { s with phase := .Finished }

/-- `pauseElection`: `onlyAdmin`, then OpenZeppelin `_pause` (which carries
`whenNotPaused`). -/
def pauseElection (s : State) (caller : Nat) : Except Err State :=
  if caller ≠ s.admin then .error .Unauthorized
  else if s.paused then .error .Paused
  else .ok { s with paused := true }

/-- `resumeElection`: `onlyAdmin`, then OpenZeppelin `_unpause` (which
carries `whenPaused`). -/
def resumeElection (s : State) (caller : Nat) : Except Err State :=
  if caller ≠ s.admin then .error .Unauthorized
  else if s.paused = false then .error .NotPaused
  else .ok { s with paused := false }

/-- The storage after a successful `delegate(dst)` call by `caller`: unwind
any previous delegation at the old target, set the edge, then credit the new
target with the caller's weight (three sequential storage writes, as in the
source). -/
def delegateNewState (s : State) (caller dst : Nat) : State :=
  let sender := s.voters caller
  let s1 :=
    if sender.delegate = 0 then s
    else
      let old := s.voters sender.delegate
      let votersA := fun a =>
        if a = sender.delegate then
          { old with delegatedWeight := old.delegatedWeight - sender.weight }
        else s.voters a
      { s with voters := votersA }
  let votersB := fun a =>
    if a = caller then { s1.voters caller with delegate := dst }
    else s1.voters a
  let s2 := { s1 with voters := votersB }
  let tgt := s2.voters dst
  let votersC := fun a =>
    if a = dst then { tgt with delegatedWeight := tgt.delegatedWeight + sender.weight }
    else s2.voters a
  { s2 with voters := votersC }

/-- `delegate(to)`: `inPhase(Setup)`, `whenNotPaused`; the caller must be
whitelisted and not have voted, `to` must be distinct from the caller,
non-zero and whitelisted; the unwinding of a previous delegation uses
Solidity 0.8 checked subtraction. -/
def delegate (s : State) (caller dst : Nat) : Except Err State :=
  if s.phase ≠ .Setup then .error .WrongPhase
  else if s.paused then .error .Paused
  else
    let sender := s.voters caller
    if sender.whitelisted = false then .error .NotWhitelisted
    else if sender.voted then .error .AlreadyVoted
    else if dst = caller then .error .SelfDelegation
    else if dst = 0 then .error .ZeroAddress
    else if (s.voters dst).whitelisted = false then .error .DelegateNotWhitelisted
    else if sender.delegate ≠ 0 ∧
            (s.voters sender.delegate).delegatedWeight < sender.weight then
      .error .Underflow
    else .ok (delegateNewState s caller dst)

/-- The storage after a successful `removeDelegate()` call: debit the old
target, then clear the edge. -/
def removeDelegateNewState (s : State) (caller : Nat) : State :=
  let sender := s.voters caller
  let old := s.voters sender.delegate
  let votersA := fun a =>
    if a = sender.delegate then
      { old with delegatedWeight := old.delegatedWeight - sender.weight }
    else s.voters a
  let s1 := { s with voters := votersA }
  let votersB := fun a =>
    if a = caller then { s1.voters caller with delegate := 0 }
    else s1.voters a
  { s1 with voters := votersB }

/-- `removeDelegate()`: `inPhase(Setup)`, `whenNotPaused`; the caller must be
whitelisted and have an outgoing delegation; the debit of the old target
uses Solidity 0.8 checked subtraction. -/
def removeDelegate (s : State) (caller : Nat) : Except Err State :=
  if s.phase ≠ .Setup then .error .WrongPhase
  else if s.paused then .error .Paused
  else
    let sender := s.voters caller
    if sender.whitelisted = false then .error .NotWhitelisted
    else if sender.delegate = 0 then .error .NoDelegation
    else if (s.voters sender.delegate).delegatedWeight < sender.weight then
      .error .Underflow
    else .ok (removeDelegateNewState s caller)

/-- The storage after a successful `vote(proposalId)` call, where `prop` is
the proposal record currently stored at `proposalId`: mark the voter as
voted, then add the quadratic amount and the raw total power to the
proposal's tallies. -/
def voteNewState (s : State) (caller proposalId : Nat) (prop : Proposal) : State :=
  let voter := s.voters caller
  let totalWeight := voter.weight + voter.delegatedWeight
  let quadraticVotes := calculateQuadraticVotes totalWeight
  let voters' := fun a =>
    if a = caller then { voter with voted := true, votedProposalId := proposalId }
    else s.voters a
  let prop' := { prop with voteCount := prop.voteCount + quadraticVotes,
                           rawVoteCount := prop.rawVoteCount + totalWeight }
  { s with voters := voters', proposals := s.proposals.set proposalId prop' }

/-- `vote(proposalId)`: `votingOpen` (phase, then window bounds),
`whenNotPaused`, then the body's checks in order: valid proposal id,
whitelisted, not yet voted, no outgoing delegation, positive total power. -/
def vote (s : State) (caller proposalId now : Nat) : Except Err State :=
  if s.phase ≠ .Voting then .error .VotingNotActive
  else if now < s.votingStartTime then .error .VotingNotStarted
  else if s.votingEndTime < now then .error .VotingEnded
  else if s.paused then .error .Paused
  else if h : s.proposals.length ≤ proposalId then .error .InvalidProposal
  else
    let voter := s.voters caller
    if voter.whitelisted = false then .error .NotWhitelisted
    else if voter.voted then .error .AlreadyVoted
    else if voter.delegate ≠ 0 then .error .Delegated
    else if voter.weight + voter.delegatedWeight = 0 then .error .NoVotingPower
    else .ok (voteNewState s caller proposalId (s.proposals.get ⟨proposalId, by omega⟩))

/-- The `for` loop of `_calculateWinner`: scan with a strictly-greater
comparison, carrying the running maximum and its (earliest) index. -/
def winnerLoop : List Proposal → Nat → Nat → Nat → Nat
  | [], _, _, winningId => winningId
  | p :: rest, i, highestVotes, winningId =>
      if highestVotes < p.voteCount then winnerLoop rest (i + 1) p.voteCount i
      else winnerLoop rest (i + 1) highestVotes winningId

/-- `_calculateWinner`: the scan started with `highestVotes = 0`,
`winningId = 0`. -/
def _calculateWinner (proposals : List Proposal) : Nat :=
  winnerLoop proposals 0 0 0

/-- `winningProposal`: `inPhase(Finished)`; recomputes the winner and
returns its id, title and tallies. -/
def winningProposal (s : State) : Except Err (Nat × String × Nat × Nat) :=
  if s.phase ≠ .Finished then .error .WrongPhase
  else
    let winnerId := _calculateWinner s.proposals
    match s.proposals.get? winnerId with
    | some p => .ok (winnerId, p.title, p.voteCount, p.rawVoteCount)
    | none => .error .InvalidProposal

/-- `getVoterCount`: the length of the tracked address array. -/
def getVoterCount (s : State) : Nat := s.voterAddresses.length

/-- The constructor: admin, name, `Setup` phase, empty storage, then the
initial titles added through `_addProposal`. -/
def initialState (admin : Nat) (electionName : String)
    (proposalTitles : List String) : Except Err State :=
  proposalTitles.foldlM (fun s t => _addProposal s t "")
    { admin := admin, electionName := electionName, phase := .Setup,
      votingStartTime := 0, votingEndTime := 0, proposals := [],
      voters := fun _ => defaultVoter, voterAddresses := [], paused := false }

/-- One externally-triggered transition: an operation name together with the
caller and any timestamp the source reads. -/
inductive Op where
  | addProposal (caller : Nat) (title description : String)
  | whitelistVoter (caller account weight : Nat)
  | startVoting (caller durationInMinutes now : Nat)
  | closeVoting (caller : Nat)
  | finalizeIfExpired (caller now : Nat)
  | pauseElection (caller : Nat)
  | resumeElection (caller : Nat)
  | delegate (caller dst : Nat)
  | removeDelegate (caller : Nat)
  | vote (caller proposalId now : Nat)

/-- Dispatch one operation against the storage. -/
def step (s : State) : Op → Except Err State
  | .addProposal c t d => addProposal s c t d
  | .whitelistVoter c a w => whitelistVoter s c a w
  | .startVoting c d n => startVoting s c d n
  | .closeVoting c => closeVoting s c
  | .finalizeIfExpired c n => finalizeIfExpired s c n
  | .pauseElection c => pauseElection s c
  | .resumeElection c => resumeElection s c
  | .delegate c t => delegate s c t
  | .removeDelegate c => removeDelegate s c
  | .vote c p n => vote s c p n

/-- The states reachable from some deployment by successful operations. -/
inductive Reachable : State → Prop
  | init (admin : Nat) (electionName : String) (proposalTitles : List String)
      (s : State) : initialState admin electionName proposalTitles = .ok s →
      Reachable s
  | step (s s' : State) (op : Op) : Reachable s → step s op = .ok s' →
      Reachable s'

/-- The weight currently delegated to `a` according to the delegation edges:
the sum of `weight` over tracked voters whose `delegate` field is `a`. -/
def delegatedSum (s : State) (a : Nat) : Nat :=
  ((s.voterAddresses.filter fun b => (s.voters b).delegate == a).map
    fun b => (s.voters b).weight).sum

/-- Numeric order of the phases, for monotonicity statements. -/
def phaseIdx : Phase → Nat
  | .Setup => 0
  | .Voting => 1
  | .Finished => 2

/-- States reachable from `s` by successful operations (used to express
"every subsequent call"). -/
inductive ReachableFrom : State → State → Prop
  | refl (s : State) : ReachableFrom s s
  | step (s s1 s2 : State) (op : Op) : ReachableFrom s s1 → step s1 op = .ok s2 →
      ReachableFrom s s2

/-- Invariant maintained by every reachable state: the tracked address list
has no duplicates and contains exactly the whitelisted addresses, and every
whitelisted voter has a positive weight. -/
def WhitelistInv (s : State) : Prop :=
  s.voterAddresses.Nodup ∧
  (∀ a, a ∈ s.voterAddresses ↔ (s.voters a).whitelisted = true) ∧
  (∀ a, (s.voters a).whitelisted = true → 0 < (s.voters a).weight)

/-- Deployment, two whitelisted voters, a delegation, then a re-whitelist of
the delegator: the exact sequence on which re-whitelisting leaves a dangling
`delegatedWeight` at the old target. -/
def c2trace : Except Err State :=
  (initialState 1 "E" ["P"]).bind fun s =>
  (whitelistVoter s 1 2 4).bind fun s =>
  (whitelistVoter s 1 3 9).bind fun s =>
  (delegate s 2 3).bind fun s =>
  whitelistVoter s 1 2 5

/-- Deployment with one proposal, one weight-1 voter, voting started, and a
first successful vote by voter `2`. -/
def c3trace : Except Err State :=
  (initialState 1 "E" ["P"]).bind fun s =>
  (whitelistVoter s 1 2 1).bind fun s =>
  (startVoting s 1 10 0).bind fun s =>
  vote s 2 0 10

/-- A `Voting`-phase state with one proposal and a fresh weight-1 voter `2`. -/
def c3s : State :=
  { admin := 1, electionName := "E", phase := .Voting,
    votingStartTime := 0, votingEndTime := 600,
    proposals := [{ title := "P", description := "", voteCount := 0, rawVoteCount := 0 }],
    voters := fun a => if a = 2 then
        { whitelisted := true, weight := 1, voted := false,
          votedProposalId := 0, delegate := 0, delegatedWeight := 0 }
      else defaultVoter,
    voterAddresses := [2], paused := false }

/-- The state after voter `2` votes for proposal `0` in `c3s`. -/
def c3sVoted : State :=
  voteNewState c3s 2 0
    { title := "P", description := "", voteCount := 0, rawVoteCount := 0 }

/-- A `Voting`-phase state with one proposal and a fresh weight-1 voter `2`
(separate copy for the C4 witness). -/
def c4s : State :=
  { admin := 1, electionName := "E", phase := .Voting,
    votingStartTime := 0, votingEndTime := 600,
    proposals := [{ title := "P", description := "", voteCount := 0, rawVoteCount := 0 }],
    voters := fun a => if a = 2 then
        { whitelisted := true, weight := 1, voted := false,
          votedProposalId := 0, delegate := 0, delegatedWeight := 0 }
      else defaultVoter,
    voterAddresses := [2], paused := false }

/-- A `Finished`-phase state (for the C5 witness). -/
def c5s : State :=
  { admin := 1, electionName := "E", phase := .Finished,
    votingStartTime := 0, votingEndTime := 60,
    proposals := [{ title := "P", description := "", voteCount := 2, rawVoteCount := 5 }],
    voters := fun _ => defaultVoter, voterAddresses := [2], paused := false }

/-- A `Finished`-phase state (for the C6 witness). -/
def c6s : State :=
  { admin := 1, electionName := "E", phase := .Finished,
    votingStartTime := 0, votingEndTime := 60,
    proposals := [{ title := "A", description := "", voteCount := 5, rawVoteCount := 25 },
                  { title := "B", description := "", voteCount := 5, rawVoteCount := 25 },
                  { title := "C", description := "", voteCount := 3, rawVoteCount := 9 }],
    voters := fun _ => defaultVoter, voterAddresses := [2], paused := false }

/-- Deployment, one voter, then `pauseElection`: a paused `Setup` state. -/
def c7trace : Except Err State :=
  (initialState 1 "E" ["P"]).bind fun s =>
  (whitelistVoter s 1 2 1).bind fun s =>
  pauseElection s 1

/-- A paused `Voting`-phase state with a whitelisted voter (C7 witness). -/
def c7s : State :=
  { admin := 1, electionName := "E", phase := .Voting,
    votingStartTime := 0, votingEndTime := 600,
    proposals := [{ title := "P", description := "", voteCount := 0, rawVoteCount := 0 }],
    voters := fun a => if a = 2 then
        { whitelisted := true, weight := 1, voted := false,
          votedProposalId := 0, delegate := 0, delegatedWeight := 0 }
      else defaultVoter,
    voterAddresses := [2], paused := true }

/-- A `Setup` state with one proposal and one whitelisted voter (C8 witness). -/
def c8s : State :=
  { admin := 1, electionName := "E", phase := .Setup,
    votingStartTime := 0, votingEndTime := 0,
    proposals := [{ title := "P", description := "", voteCount := 0, rawVoteCount := 0 }],
    voters := fun a => if a = 2 then
        { whitelisted := true, weight := 3, voted := false,
          votedProposalId := 0, delegate := 0, delegatedWeight := 0 }
      else defaultVoter,
    voterAddresses := [2], paused := false }

/-- The freshly deployed state `initialState 1 "E" ["P"]` (C9 witness). -/
def c9s : State :=
  { admin := 1, electionName := "E", phase := .Setup,
    votingStartTime := 0, votingEndTime := 0,
    proposals := [{ title := "P", description := "", voteCount := 0, rawVoteCount := 0 }],
    voters := fun _ => defaultVoter, voterAddresses := [], paused := false }

/-- The freshly deployed state `initialState 1 "E" ["P"]` (C10 witness). -/
def c10a : State :=
  { admin := 1, electionName := "E", phase := .Setup,
    votingStartTime := 0, votingEndTime := 0,
    proposals := [{ title := "P", description := "", voteCount := 0, rawVoteCount := 0 }],
    voters := fun _ => defaultVoter, voterAddresses := [], paused := false }

/-- `c10a` after `whitelistVoter 2 5`. -/
def c10b : State :=
  { c10a with
    voters := fun a => if a = 2 then
        { whitelisted := true, weight := 5, voted := false,
          votedProposalId := 0, delegate := 0, delegatedWeight := 0 }
      else defaultVoter,
    voterAddresses := [2] }

/-- `c10b` after the re-whitelist `whitelistVoter 2 7`. -/
def c10c : State :=
  { c10b with
    voters := fun a => if a = 2 then
        { whitelisted := true, weight := 7, voted := false,
          votedProposalId := 0, delegate := 0, delegatedWeight := 0 }
      else c10b.voters a }

/-! ## Lemmas and claim theorems -/

/-- A Newton step from any positive `y` stays at or above the integer
square root. -/
lemma sqrt_le_newtonStep (weight y : Nat) (hy : 0 < y) :
    Nat.sqrt weight ≤ newtonStep weight y := by
  set s := Nat.sqrt weight with hs
  have hw : s * s ≤ weight := Nat.sqrt_le weight
  have h2 : 2 * s ≤ weight / y + y := by
    rcases le_or_lt (2 * s) y with hcase | hcase
    · exact le_trans hcase (Nat.le_add_left y (weight / y))
    · have hsub : (2 * s - y) * y ≤ s * s := by
        have hyle : y ≤ 2 * s := le_of_lt hcase
        zify [hyle]
        nlinarith [sq_nonneg ((s : ℤ) - (y : ℤ))]
      have hdiv : 2 * s - y ≤ weight / y :=
        (Nat.le_div_iff_mul_le hy).mpr (le_trans hsub hw)
      omega
  calc s = 2 * s / 2 := by omega
    _ ≤ (weight / y + y) / 2 := Nat.div_le_div_right h2
    _ = newtonStep weight y := rfl

/-- If the loop is entered at an `x` at or above `Nat.sqrt weight` with `y`
the Newton step of `x`, it returns exactly `Nat.sqrt weight` (for
`weight ≥ 1`, which is the only way the source reaches the loop). -/
lemma babylonianLoop_eq_sqrt (weight : Nat) (hw : 1 ≤ Nat.sqrt weight) :
    ∀ x, Nat.sqrt weight ≤ x →
      babylonianLoop weight x (newtonStep weight x) = Nat.sqrt weight := by
  intro x
  induction x using Nat.strong_induction_on with
  | _ x ih =>
    intro hsx
    rw [babylonianLoop]
    split
    · next hlt =>
      exact ih _ hlt (sqrt_le_newtonStep weight x (by omega))
    · next hge =>
      by_contra hne
      have hslt : Nat.sqrt weight < x := by omega
      have hxx : weight < x * x := by
        have h1 : weight < (Nat.sqrt weight + 1) * (Nat.sqrt weight + 1) :=
          Nat.lt_succ_sqrt weight
        have h2 : (Nat.sqrt weight + 1) * (Nat.sqrt weight + 1) ≤ x * x :=
          Nat.mul_le_mul (by omega) (by omega)
        omega
      have hdx : weight / x < x := (Nat.div_lt_iff_lt_mul (by omega)).mpr hxx
      have : newtonStep weight x < x := by
        unfold newtonStep
        omega
      omega

/-- `calculateQuadraticVotes` computes `Nat.sqrt`, the floor of the real
square root, on every natural number. -/
theorem calculateQuadraticVotes_eq_sqrt (weight : Nat) :
    calculateQuadraticVotes weight = Nat.sqrt weight := by
  unfold calculateQuadraticVotes
  split
  · next h => simp [h]
  · split
    · next h => simp_all
    · next h0 h1 =>
      have hw2 : 2 ≤ weight := by omega
      have hstep : (weight + 1) / 2 = newtonStep weight weight := by
        unfold newtonStep
        rw [Nat.div_self (by omega)]
        omega
      rw [hstep]
      exact babylonianLoop_eq_sqrt weight
        (Nat.le_sqrt.mpr (by omega)) weight (Nat.sqrt_le_self weight)

/-- Claim C1: for every non-negative integer `w`, `calculateQuadraticVotes w`
is the integer square root of `w`: it equals `Nat.sqrt w`, it satisfies the
floor-of-square-root characterisation `r * r ≤ w < (r + 1) * (r + 1)`, and it
takes the listed values at `0, 1, 3, 4, 8, 9, 99, 100`. -/
theorem C1_calculateQuadraticVotes_isqrt :
    (∀ w : Nat, calculateQuadraticVotes w = Nat.sqrt w) ∧
    (∀ w : Nat, calculateQuadraticVotes w * calculateQuadraticVotes w ≤ w ∧
      w < (calculateQuadraticVotes w + 1) * (calculateQuadraticVotes w + 1)) ∧
    calculateQuadraticVotes 0 = 0 ∧ calculateQuadraticVotes 1 = 1 ∧
    calculateQuadraticVotes 3 = 1 ∧ calculateQuadraticVotes 4 = 2 ∧
    calculateQuadraticVotes 8 = 2 ∧ calculateQuadraticVotes 9 = 3 ∧
    calculateQuadraticVotes 99 = 9 ∧ calculateQuadraticVotes 100 = 10 := by
  have hchar : ∀ w : Nat,
      calculateQuadraticVotes w * calculateQuadraticVotes w ≤ w ∧
      w < (calculateQuadraticVotes w + 1) * (calculateQuadraticVotes w + 1) := by
    intro w
    rw [calculateQuadraticVotes_eq_sqrt]
    exact ⟨Nat.sqrt_le w, Nat.lt_succ_sqrt w⟩
  have hval : ∀ w r : Nat, r * r ≤ w → w < (r + 1) * (r + 1) →
      calculateQuadraticVotes w = r := by
    intro w r h1 h2
    rw [calculateQuadraticVotes_eq_sqrt]
    exact (Nat.eq_sqrt.mpr ⟨h1, h2⟩).symm
  refine ⟨calculateQuadraticVotes_eq_sqrt, hchar, ?_, ?_, ?_, ?_, ?_, ?_, ?_, ?_⟩
  · exact hval 0 0 (by norm_num) (by norm_num)
  · exact hval 1 1 (by norm_num) (by norm_num)
  · exact hval 3 1 (by norm_num) (by norm_num)
  · exact hval 4 2 (by norm_num) (by norm_num)
  · exact hval 8 2 (by norm_num) (by norm_num)
  · exact hval 9 3 (by norm_num) (by norm_num)
  · exact hval 99 9 (by norm_num) (by norm_num)
  · exact hval 100 10 (by norm_num) (by norm_num)

lemma addProposal_ok_iff {s s' : State} {c : Nat} {t d : String} :
    addProposal s c t d = .ok s' ↔
      c = s.admin ∧ s.phase = .Setup ∧ s.paused = false ∧ t ≠ "" ∧
      s' = { s with proposals := s.proposals ++
              [{ title := t, description := d, voteCount := 0, rawVoteCount := 0 }] } := by
  unfold addProposal _addProposal
  split_ifs with h1 h2 h3 h4 <;>
    (constructor
     · intro h
       first
         | exact h.elim
         | exact absurd h (fun hh => Except.noConfusion hh)
         | (injection h with h
            subst h
            simp_all)
     · intro hc
       first
         | (simp_all
            done)
         | (simp_all
            omega)
         | omega)

lemma whitelistVoter_ok_iff {s s' : State} {c a w : Nat} :
    whitelistVoter s c a w = .ok s' ↔
      c = s.admin ∧ s.phase = .Setup ∧ s.paused = false ∧ a ≠ 0 ∧ w ≠ 0 ∧ a ≠ s.admin ∧
      s' = { s with
        voters := fun b => if b = a then
            { whitelisted := true, weight := w, voted := false,
              votedProposalId := 0, delegate := 0, delegatedWeight := 0 }
          else s.voters b,
        voterAddresses := if (s.voters a).whitelisted then s.voterAddresses
                          else s.voterAddresses ++ [a] } := by
  unfold whitelistVoter
  split_ifs with h1 h2 h3 h4 h5 h6 h7 <;>
    (constructor
     · intro h
       first
         | exact h.elim
         | exact absurd h (fun hh => Except.noConfusion hh)
         | (injection h with h
            subst h
            simp_all)
     · intro hc
       first
         | (simp_all
            done)
         | (simp_all
            omega)
         | omega)

lemma startVoting_ok_iff {s s' : State} {c d n : Nat} :
    startVoting s c d n = .ok s' ↔
      c = s.admin ∧ s.phase = .Setup ∧ s.paused = false ∧
      s.proposals.length ≠ 0 ∧ s.voterAddresses.length ≠ 0 ∧ d ≠ 0 ∧
      s' = { s with phase := .Voting, votingStartTime := n,
                    votingEndTime := n + d * 60 } := by
  unfold startVoting
  split_ifs with h1 h2 h3 h4 h5 h6 <;>
    (constructor
     · intro h
       first
         | exact h.elim
         | exact absurd h (fun hh => Except.noConfusion hh)
         | (injection h with h
            subst h
            simp_all)
     · intro hc
       first
         | (simp_all
            done)
         | (simp_all
            omega)
         | omega)

lemma closeVoting_ok_iff {s s' : State} {c : Nat} :
    closeVoting s c = .ok s' ↔
      c = s.admin ∧ s.phase = .Voting ∧ s.paused = false ∧
      s' = { s with phase := .Finished } := by
  unfold closeVoting
  split_ifs with h1 h2 h3 <;>
    (constructor
     · intro h
       first
         | exact h.elim
         | exact absurd h (fun hh => Except.noConfusion hh)
         | (injection h with h
            subst h
            simp_all)
     · intro hc
       first
         | (simp_all
            done)
         | (simp_all
            omega)
         | omega)

lemma finalizeIfExpired_ok_iff {s s' : State} {c n : Nat} :
    finalizeIfExpired s c n = .ok s' ↔
      s.phase = .Voting ∧ s.paused = false ∧ s.votingEndTime < n ∧
      s' = { s with phase := .Finished } := by
  unfold finalizeIfExpired
  split_ifs with h1 h2 h3 <;>
    (constructor
     · intro h
       first
         | exact h.elim
         | exact absurd h (fun hh => Except.noConfusion hh)
         | (injection h with h
            subst h
            refine ⟨by simp_all, by simp_all, by omega, rfl⟩)
     · intro hc
       first
         | (simp_all
            done)
         | (simp_all
            omega)
         | omega)

lemma pauseElection_ok_iff {s s' : State} {c : Nat} :
    pauseElection s c = .ok s' ↔
      c = s.admin ∧ s.paused = false ∧ s' = { s with paused := true } := by
  unfold pauseElection
  split_ifs with h1 h2 <;>
    (constructor
     · intro h
       first
         | exact h.elim
         | exact absurd h (fun hh => Except.noConfusion hh)
         | (injection h with h
            subst h
            simp_all)
     · intro hc
       first
         | (simp_all
            done)
         | (simp_all
            omega)
         | omega)

lemma resumeElection_ok_iff {s s' : State} {c : Nat} :
    resumeElection s c = .ok s' ↔
      c = s.admin ∧ s.paused = true ∧ s' = { s with paused := false } := by
  unfold resumeElection
  split_ifs with h1 h2 <;>
    (constructor
     · intro h
       first
         | exact h.elim
         | exact absurd h (fun hh => Except.noConfusion hh)
         | (injection h with h
            subst h
            simp_all)
     · intro hc
       first
         | (simp_all
            done)
         | (simp_all
            omega)
         | omega)

lemma delegateNewState_fields (s : State) (c d : Nat) :
    (delegateNewState s c d).phase = s.phase ∧
    (delegateNewState s c d).proposals = s.proposals ∧
    (delegateNewState s c d).voterAddresses = s.voterAddresses ∧
    (delegateNewState s c d).admin = s.admin ∧
    (delegateNewState s c d).paused = s.paused ∧
    (delegateNewState s c d).votingStartTime = s.votingStartTime ∧
    (delegateNewState s c d).votingEndTime = s.votingEndTime ∧
    (∀ a, ((delegateNewState s c d).voters a).whitelisted = (s.voters a).whitelisted ∧
          ((delegateNewState s c d).voters a).weight = (s.voters a).weight ∧
          ((delegateNewState s c d).voters a).voted = (s.voters a).voted) := by
  simp only [delegateNewState]
  split_ifs with h0 <;>
    (refine ⟨by trivial, by trivial, by trivial, by trivial, by trivial,
             by trivial, by trivial, ?_⟩
     intro a
     by_cases ha1 : a = d <;> by_cases ha2 : a = c <;>
       by_cases ha3 : a = (s.voters c).delegate <;>
       simp_all)

lemma removeDelegateNewState_fields (s : State) (c : Nat) :
    (removeDelegateNewState s c).phase = s.phase ∧
    (removeDelegateNewState s c).proposals = s.proposals ∧
    (removeDelegateNewState s c).voterAddresses = s.voterAddresses ∧
    (removeDelegateNewState s c).admin = s.admin ∧
    (removeDelegateNewState s c).paused = s.paused ∧
    (removeDelegateNewState s c).votingStartTime = s.votingStartTime ∧
    (removeDelegateNewState s c).votingEndTime = s.votingEndTime ∧
    (∀ a, ((removeDelegateNewState s c).voters a).whitelisted = (s.voters a).whitelisted ∧
          ((removeDelegateNewState s c).voters a).weight = (s.voters a).weight ∧
          ((removeDelegateNewState s c).voters a).voted = (s.voters a).voted) := by
  simp only [removeDelegateNewState]
  refine ⟨by trivial, by trivial, by trivial, by trivial, by trivial,
          by trivial, by trivial, ?_⟩
  intro a
  by_cases ha1 : a = c <;> by_cases ha2 : a = (s.voters c).delegate <;>
    simp_all

lemma voteNewState_fields (s : State) (c p : Nat) (prop : Proposal) :
    (voteNewState s c p prop).phase = s.phase ∧
    (voteNewState s c p prop).voterAddresses = s.voterAddresses ∧
    (voteNewState s c p prop).admin = s.admin ∧
    (voteNewState s c p prop).paused = s.paused ∧
    (voteNewState s c p prop).votingStartTime = s.votingStartTime ∧
    (voteNewState s c p prop).votingEndTime = s.votingEndTime ∧
    (voteNewState s c p prop).voters c =
      { s.voters c with voted := true, votedProposalId := p } ∧
    (∀ a, a ≠ c → (voteNewState s c p prop).voters a = s.voters a) ∧
    (voteNewState s c p prop).proposals = s.proposals.set p
      { prop with
        voteCount := prop.voteCount +
          calculateQuadraticVotes ((s.voters c).weight + (s.voters c).delegatedWeight),
        rawVoteCount := prop.rawVoteCount +
          ((s.voters c).weight + (s.voters c).delegatedWeight) } := by
  simp only [voteNewState]
  refine ⟨by trivial, by trivial, by trivial, by trivial, by trivial,
          by trivial, by simp, ?_, by trivial⟩
  intro a ha
  simp [ha]

lemma delegate_ok_shape {s s' : State} {c d : Nat} (h : delegate s c d = .ok s') :
    s.phase = .Setup ∧ s.paused = false ∧
    (s.voters c).whitelisted = true ∧ (s.voters c).voted = false ∧
    s'.phase = s.phase ∧ s'.proposals = s.proposals ∧
    s'.voterAddresses = s.voterAddresses ∧ s'.admin = s.admin ∧
    s'.paused = s.paused ∧ s'.votingStartTime = s.votingStartTime ∧
    s'.votingEndTime = s.votingEndTime ∧
    (∀ a, ((s'.voters a)).whitelisted = (s.voters a).whitelisted ∧
          (s'.voters a).weight = (s.voters a).weight ∧
          (s'.voters a).voted = (s.voters a).voted) := by
  simp only [delegate] at h
  split_ifs at h with h1 h2 h3 h4 h5 h6 h7 h8 <;>
    first
      | exact h.elim
      | exact absurd h (fun hh => Except.noConfusion hh)
      | (injection h with h
         subst h
         obtain ⟨f1, f2, f3, f4, f5, f6, f7, f8⟩ := delegateNewState_fields s c d
         exact ⟨not_not.mp h1, by simpa using h2, by simpa using h3,
                by simpa using h4, f1, f2, f3, f4, f5, f6, f7, f8⟩)

lemma removeDelegate_ok_shape {s s' : State} {c : Nat}
    (h : removeDelegate s c = .ok s') :
    s.phase = .Setup ∧ s.paused = false ∧
    (s.voters c).whitelisted = true ∧ (s.voters c).delegate ≠ 0 ∧
    s'.phase = s.phase ∧ s'.proposals = s.proposals ∧
    s'.voterAddresses = s.voterAddresses ∧ s'.admin = s.admin ∧
    s'.paused = s.paused ∧ s'.votingStartTime = s.votingStartTime ∧
    s'.votingEndTime = s.votingEndTime ∧
    (∀ a, (s'.voters a).whitelisted = (s.voters a).whitelisted ∧
          (s'.voters a).weight = (s.voters a).weight ∧
          (s'.voters a).voted = (s.voters a).voted) := by
  simp only [removeDelegate] at h
  split_ifs at h with h1 h2 h3 h4 h5 <;>
    first
      | exact h.elim
      | exact absurd h (fun hh => Except.noConfusion hh)
      | (injection h with h
         subst h
         obtain ⟨f1, f2, f3, f4, f5, f6, f7, f8⟩ := removeDelegateNewState_fields s c
         exact ⟨not_not.mp h1, by simpa using h2, by simpa using h3, h4,
                f1, f2, f3, f4, f5, f6, f7, f8⟩)

lemma vote_ok_shape {s s' : State} {c p n : Nat} (h : vote s c p n = .ok s') :
    s.phase = .Voting ∧ s.votingStartTime ≤ n ∧ n ≤ s.votingEndTime ∧
    s.paused = false ∧ p < s.proposals.length ∧
    (s.voters c).whitelisted = true ∧ (s.voters c).voted = false ∧
    (s.voters c).delegate = 0 ∧
    (s.voters c).weight + (s.voters c).delegatedWeight ≠ 0 ∧
    s'.phase = s.phase ∧ s'.voterAddresses = s.voterAddresses ∧
    s'.admin = s.admin ∧ s'.paused = s.paused ∧
    s'.votingStartTime = s.votingStartTime ∧ s'.votingEndTime = s.votingEndTime ∧
    s'.voters c = { s.voters c with voted := true, votedProposalId := p } ∧
    (∀ a, a ≠ c → s'.voters a = s.voters a) ∧
    s'.proposals.length = s.proposals.length ∧
    (∀ j, j ≠ p → s'.proposals[j]? = s.proposals[j]?) ∧
    (∀ q, s.proposals[p]? = some q →
      s'.proposals[p]? = some { q with
        voteCount := q.voteCount +
          calculateQuadraticVotes ((s.voters c).weight + (s.voters c).delegatedWeight),
        rawVoteCount := q.rawVoteCount +
          ((s.voters c).weight + (s.voters c).delegatedWeight) }) := by
  simp only [vote] at h
  split_ifs at h with h1 h2 h3 h4 h5 h6 h7 h8 h9 <;>
    first
      | exact h.elim
      | exact absurd h (fun hh => Except.noConfusion hh)
      | (injection h with h
         subst h
         obtain ⟨f1, f2, f3, f4, f5, f6, f7, f8, f9⟩ :=
           voteNewState_fields s c p (s.proposals.get ⟨p, by omega⟩)
         have hp : p < s.proposals.length := by omega
         refine ⟨not_not.mp h1, by omega, by omega, by simpa using h4, hp,
                 by simpa using h6, by simpa using h7, not_not.mp h8, h9,
                 f1, f2, f3, f4, f5, f6, f7, f8, ?_, ?_, ?_⟩
         · rw [f9]
           simp
         · intro j hj
           rw [f9]
           exact List.getElem?_set_ne (fun hh => hj hh.symm)
         · intro q hq
           rw [f9, List.getElem?_set_eq hp]
           have hq2 : q = s.proposals.get ⟨p, hp⟩ := by
             rw [List.getElem?_eq_getElem hp] at hq
             exact (Option.some.inj hq).symm
           subst hq2
           rfl)

lemma step_phase_mono {s s' : State} {op : Op} (h : step s op = .ok s') :
    phaseIdx s.phase ≤ phaseIdx s'.phase := by
  cases op with
  | addProposal c t d =>
    obtain ⟨-, -, -, -, rfl⟩ := addProposal_ok_iff.mp h
    exact le_refl _
  | whitelistVoter c a w =>
    obtain ⟨-, -, -, -, -, -, rfl⟩ := whitelistVoter_ok_iff.mp h
    exact le_refl _
  | startVoting c d n =>
    obtain ⟨-, h2, -, -, -, -, rfl⟩ := startVoting_ok_iff.mp h
    rw [h2]
    exact Nat.le_succ 0
  | closeVoting c =>
    obtain ⟨-, h2, -, rfl⟩ := closeVoting_ok_iff.mp h
    rw [h2]
    exact Nat.le_succ 1
  | finalizeIfExpired c n =>
    obtain ⟨h2, -, -, rfl⟩ := (@finalizeIfExpired_ok_iff s s' c n).mp h
    rw [h2]
    exact Nat.le_succ 1
  | pauseElection c =>
    obtain ⟨-, -, rfl⟩ := pauseElection_ok_iff.mp h
    exact le_refl _
  | resumeElection c =>
    obtain ⟨-, -, rfl⟩ := resumeElection_ok_iff.mp h
    exact le_refl _
  | delegate c d =>
    rw [(delegate_ok_shape h).2.2.2.2.1]
  | removeDelegate c =>
    rw [(removeDelegate_ok_shape h).2.2.2.2.1]
  | vote c p n =>
    rw [(vote_ok_shape h).2.2.2.2.2.2.2.2.2.1, (vote_ok_shape h).1]

lemma step_setup_to_voting {s s' : State} {op : Op} (h : step s op = .ok s')
    (h1 : s.phase = .Setup) (h2 : s'.phase = .Voting) :
    ∃ c d n, op = .startVoting c d n := by
  cases op with
  | startVoting c d n => exact ⟨c, d, n, rfl⟩
  | addProposal c t d =>
    obtain ⟨-, -, -, -, rfl⟩ := addProposal_ok_iff.mp h
    simp_all
  | whitelistVoter c a w =>
    obtain ⟨-, -, -, -, -, -, rfl⟩ := whitelistVoter_ok_iff.mp h
    simp_all
  | closeVoting c =>
    obtain ⟨-, hp, -, rfl⟩ := closeVoting_ok_iff.mp h
    simp_all
  | finalizeIfExpired c n =>
    obtain ⟨hp, -, -, rfl⟩ := (@finalizeIfExpired_ok_iff s s' c n).mp h
    simp_all
  | pauseElection c =>
    obtain ⟨-, -, rfl⟩ := pauseElection_ok_iff.mp h
    simp_all
  | resumeElection c =>
    obtain ⟨-, -, rfl⟩ := resumeElection_ok_iff.mp h
    simp_all
  | delegate c d =>
    have := (delegate_ok_shape h).2.2.2.2.1
    simp_all
  | removeDelegate c =>
    have := (removeDelegate_ok_shape h).2.2.2.2.1
    simp_all
  | vote c p n =>
    have := (vote_ok_shape h).2.2.2.2.2.2.2.2.2.1
    have hv := (vote_ok_shape h).1
    simp_all

lemma step_voting_to_finished {s s' : State} {op : Op} (h : step s op = .ok s')
    (h1 : s.phase = .Voting) (h2 : s'.phase = .Finished) :
    (∃ c, op = .closeVoting c) ∨ (∃ c n, op = .finalizeIfExpired c n) := by
  cases op with
  | closeVoting c => exact Or.inl ⟨c, rfl⟩
  | finalizeIfExpired c n => exact Or.inr ⟨c, n, rfl⟩
  | addProposal c t d =>
    obtain ⟨-, hp, -, -, rfl⟩ := addProposal_ok_iff.mp h
    simp_all
  | whitelistVoter c a w =>
    obtain ⟨-, hp, -, -, -, -, rfl⟩ := whitelistVoter_ok_iff.mp h
    simp_all
  | startVoting c d n =>
    obtain ⟨-, hp, -, -, -, -, rfl⟩ := startVoting_ok_iff.mp h
    simp_all
  | pauseElection c =>
    obtain ⟨-, -, rfl⟩ := pauseElection_ok_iff.mp h
    simp_all
  | resumeElection c =>
    obtain ⟨-, -, rfl⟩ := resumeElection_ok_iff.mp h
    simp_all
  | delegate c d =>
    have := (delegate_ok_shape h).1
    simp_all
  | removeDelegate c =>
    have := (removeDelegate_ok_shape h).1
    simp_all
  | vote c p n =>
    have := (vote_ok_shape h).2.2.2.2.2.2.2.2.2.1
    have hv := (vote_ok_shape h).1
    simp_all

lemma step_finished_frozen {s s' : State} {op : Op} (hf : s.phase = .Finished)
    (h : step s op = .ok s') :
    s'.phase = .Finished ∧ s'.proposals = s.proposals ∧ s'.voters = s.voters ∧
    s'.voterAddresses = s.voterAddresses ∧ s'.admin = s.admin := by
  cases op with
  | addProposal c t d =>
    obtain ⟨-, hp, -, -, rfl⟩ := addProposal_ok_iff.mp h
    simp_all
  | whitelistVoter c a w =>
    obtain ⟨-, hp, -, -, -, -, rfl⟩ := whitelistVoter_ok_iff.mp h
    simp_all
  | startVoting c d n =>
    obtain ⟨-, hp, -, -, -, -, rfl⟩ := startVoting_ok_iff.mp h
    simp_all
  | closeVoting c =>
    obtain ⟨-, hp, -, rfl⟩ := closeVoting_ok_iff.mp h
    simp_all
  | finalizeIfExpired c n =>
    obtain ⟨hp, -, -, rfl⟩ := (@finalizeIfExpired_ok_iff s s' c n).mp h
    simp_all
  | pauseElection c =>
    obtain ⟨-, -, rfl⟩ := pauseElection_ok_iff.mp h
    exact ⟨hf, rfl, rfl, rfl, rfl⟩
  | resumeElection c =>
    obtain ⟨-, -, rfl⟩ := resumeElection_ok_iff.mp h
    exact ⟨hf, rfl, rfl, rfl, rfl⟩
  | delegate c d =>
    have := (delegate_ok_shape h).1
    simp_all
  | removeDelegate c =>
    have := (removeDelegate_ok_shape h).1
    simp_all
  | vote c p n =>
    have := (vote_ok_shape h).1
    simp_all

lemma addProposals_fold {ts : List String} : ∀ {s0 s : State},
    ts.foldlM (fun s t => _addProposal s t "") s0 = .ok s →
    s.admin = s0.admin ∧ s.phase = s0.phase ∧ s.paused = s0.paused ∧
    s.voters = s0.voters ∧ s.voterAddresses = s0.voterAddresses ∧
    s.votingStartTime = s0.votingStartTime ∧ s.votingEndTime = s0.votingEndTime := by
  induction ts with
  | nil =>
    intro s0 s h
    simp only [List.foldlM_nil] at h
    injection h with h
    subst h
    exact ⟨rfl, rfl, rfl, rfl, rfl, rfl, rfl⟩
  | cons t ts ih =>
    intro s0 s h
    rw [List.foldlM_cons] at h
    cases hh : _addProposal s0 t "" with
    | error e =>
      rw [hh] at h
      simp only [bind, Except.bind] at h
      exact absurd h (fun x => Except.noConfusion x)
    | ok s1 =>
      rw [hh] at h
      simp only [bind, Except.bind] at h
      have h1 := ih h
      have h2 : s1.admin = s0.admin ∧ s1.phase = s0.phase ∧ s1.paused = s0.paused ∧
          s1.voters = s0.voters ∧ s1.voterAddresses = s0.voterAddresses ∧
          s1.votingStartTime = s0.votingStartTime ∧
          s1.votingEndTime = s0.votingEndTime := by
        unfold _addProposal at hh
        split_ifs at hh
        all_goals
          first
            | exact hh.elim
            | (injection hh with hh
               subst hh
               exact ⟨rfl, rfl, rfl, rfl, rfl, rfl, rfl⟩)
      exact ⟨h1.1.trans h2.1, h1.2.1.trans h2.2.1, h1.2.2.1.trans h2.2.2.1,
             h1.2.2.2.1.trans h2.2.2.2.1, h1.2.2.2.2.1.trans h2.2.2.2.2.1,
             h1.2.2.2.2.2.1.trans h2.2.2.2.2.2.1,
             h1.2.2.2.2.2.2.trans h2.2.2.2.2.2.2⟩

lemma initialState_ok {a : Nat} {nm : String} {ts : List String} {s : State}
    (h : initialState a nm ts = .ok s) :
    s.admin = a ∧ s.phase = .Setup ∧ s.paused = false ∧
    s.voters = (fun _ => defaultVoter) ∧ s.voterAddresses = [] := by
  unfold initialState at h
  have hf := addProposals_fold h
  exact ⟨hf.1, hf.2.1, hf.2.2.1, hf.2.2.2.1, hf.2.2.2.2.1⟩

/-- After a vote, the `voted` flag of that voter survives every later
successful operation (the only reset path, `whitelistVoter`, needs the
`Setup` phase, which is gone for good). -/
lemma step_preserves_voted {s s' : State} {op : Op} {a : Nat}
    (hph : s.phase ≠ .Setup) (hv : (s.voters a).voted = true)
    (h : step s op = .ok s') :
    s'.phase ≠ .Setup ∧ (s'.voters a).voted = true := by
  cases op with
  | addProposal c t d =>
    obtain ⟨-, hp, -, -, rfl⟩ := addProposal_ok_iff.mp h
    exact absurd hp hph
  | whitelistVoter c a w =>
    obtain ⟨-, hp, -, -, -, -, rfl⟩ := whitelistVoter_ok_iff.mp h
    exact absurd hp hph
  | startVoting c d n =>
    obtain ⟨-, hp, -, -, -, -, rfl⟩ := startVoting_ok_iff.mp h
    exact absurd hp hph
  | closeVoting c =>
    obtain ⟨-, hp, -, rfl⟩ := closeVoting_ok_iff.mp h
    exact ⟨by simp, hv⟩
  | finalizeIfExpired c n =>
    obtain ⟨hp, -, -, rfl⟩ := (@finalizeIfExpired_ok_iff s s' c n).mp h
    exact ⟨by simp, hv⟩
  | pauseElection c =>
    obtain ⟨-, -, rfl⟩ := pauseElection_ok_iff.mp h
    exact ⟨hph, hv⟩
  | resumeElection c =>
    obtain ⟨-, -, rfl⟩ := resumeElection_ok_iff.mp h
    exact ⟨hph, hv⟩
  | delegate c d =>
    exact absurd (delegate_ok_shape h).1 hph
  | removeDelegate c =>
    exact absurd (removeDelegate_ok_shape h).1 hph
  | vote c p n =>
    obtain ⟨hp, -, -, -, -, -, -, -, -, hp', -, -, -, -, -, hvc, hother, -⟩ :=
      vote_ok_shape h
    refine ⟨by rw [hp', hp]; simp, ?_⟩
    by_cases hac : a = c
    · subst hac
      rw [hvc]
    · rw [hother a hac]
      exact hv

lemma reachableFrom_preserves_voted {s s2 : State} {a : Nat}
    (hr : ReachableFrom s s2) (hph : s.phase ≠ .Setup)
    (hv : (s.voters a).voted = true) :
    s2.phase ≠ .Setup ∧ (s2.voters a).voted = true := by
  induction hr with
  | refl => exact ⟨hph, hv⟩
  | step s1 s2 op hr hstep ih =>
    exact step_preserves_voted ih.1 ih.2 hstep

/-- A voter whose `voted` flag is set can never vote again. -/
lemma vote_not_ok_of_voted {s : State} {a : Nat}
    (hv : (s.voters a).voted = true) (p n : Nat) :
    ¬ ∃ s2, vote s a p n = .ok s2 := by
  rintro ⟨s2, h⟩
  have := (vote_ok_shape h).2.2.2.2.2.2.1
  simp_all

/-- With the window and pause guards passing, a repeated `vote` call fails
with `AlreadyVoted` on a valid proposal id and with `InvalidProposal` on an
out-of-range one. -/
lemma vote_err_of_voted {s : State} {a : Nat}
    (hph : s.phase = .Voting) (hv : (s.voters a).voted = true)
    {n : Nat} (hn1 : s.votingStartTime ≤ n) (hn2 : n ≤ s.votingEndTime)
    (hpau : s.paused = false) (hwl : (s.voters a).whitelisted = true) (p : Nat) :
    (p < s.proposals.length → vote s a p n = .error .AlreadyVoted) ∧
    (s.proposals.length ≤ p → vote s a p n = .error .InvalidProposal) := by
  constructor <;>
    (intro hp
     simp only [vote]
     split_ifs <;> simp_all <;> omega)

/-- A `NoVotingPower` failure can only happen for a whitelisted voter whose
total power is zero. -/
lemma vote_noVotingPower_shape {s : State} {c p n : Nat}
    (h : vote s c p n = .error .NoVotingPower) :
    (s.voters c).whitelisted = true ∧
    (s.voters c).weight + (s.voters c).delegatedWeight = 0 := by
  simp only [vote] at h
  split_ifs at h <;> simp_all

/-- When every guard passes and the total power is positive, `vote`
succeeds. -/
lemma vote_succeeds {s : State} {c p n : Nat}
    (hph : s.phase = .Voting) (hn1 : s.votingStartTime ≤ n)
    (hn2 : n ≤ s.votingEndTime) (hpau : s.paused = false)
    (hp : p < s.proposals.length) (hwl : (s.voters c).whitelisted = true)
    (hv : (s.voters c).voted = false) (hd : (s.voters c).delegate = 0)
    (hT : (s.voters c).weight + (s.voters c).delegatedWeight ≠ 0) :
    ∃ s', vote s c p n = .ok s' := by
  have h : vote s c p n = .ok (voteNewState s c p (s.proposals.get ⟨p, hp⟩)) := by
    simp only [vote]
    split_ifs <;>
      first
        | rfl
        | (simp_all
           done)
        | omega
  exact ⟨_, h⟩

lemma reachable_whitelistInv {s : State} (h : Reachable s) : WhitelistInv s := by
  induction h with
  | init admin nm ts s hinit =>
    obtain ⟨-, -, -, hv, ha⟩ := initialState_ok hinit
    refine ⟨by rw [ha]; exact List.nodup_nil, ?_, ?_⟩
    · intro b
      rw [ha, hv]
      simp [defaultVoter]
    · intro b
      rw [hv]
      simp [defaultVoter]
  | step s s' op hr hstep ih =>
    obtain ⟨hnd, hmem, hwt⟩ := ih
    cases op with
    | addProposal c t d =>
      obtain ⟨-, -, -, -, rfl⟩ := addProposal_ok_iff.mp hstep
      exact ⟨hnd, hmem, hwt⟩
    | startVoting c d n =>
      obtain ⟨-, -, -, -, -, -, rfl⟩ := startVoting_ok_iff.mp hstep
      exact ⟨hnd, hmem, hwt⟩
    | closeVoting c =>
      obtain ⟨-, -, -, rfl⟩ := closeVoting_ok_iff.mp hstep
      exact ⟨hnd, hmem, hwt⟩
    | finalizeIfExpired c n =>
      obtain ⟨-, -, -, rfl⟩ := (@finalizeIfExpired_ok_iff s s' c n).mp hstep
      exact ⟨hnd, hmem, hwt⟩
    | pauseElection c =>
      obtain ⟨-, -, rfl⟩ := pauseElection_ok_iff.mp hstep
      exact ⟨hnd, hmem, hwt⟩
    | resumeElection c =>
      obtain ⟨-, -, rfl⟩ := resumeElection_ok_iff.mp hstep
      exact ⟨hnd, hmem, hwt⟩
    | whitelistVoter c a w =>
      obtain ⟨-, -, -, -, hw0, -, rfl⟩ := whitelistVoter_ok_iff.mp hstep
      by_cases hwl : (s.voters a).whitelisted
      · refine ⟨by simpa [hwl] using hnd, ?_, ?_⟩
        · intro b
          by_cases hb : b = a
          · subst hb
            simpa [hwl] using (hmem b).mpr hwl
          · simpa [hwl, hb] using hmem b
        · intro b
          by_cases hb : b = a
          · subst hb
            simp [Nat.pos_of_ne_zero hw0]
          · simpa [hb] using hwt b
      · have hna : a ∉ s.voterAddresses := fun hmem' => hwl ((hmem a).mp hmem')
        have hwl' : (s.voters a).whitelisted = false := by simpa using hwl
        refine ⟨?_, ?_, ?_⟩
        · simp [hwl', List.nodup_append, hnd, hna]
        · intro b
          by_cases hb : b = a
          · subst hb
            simp [hwl']
          · simpa [hwl', hb] using hmem b
        · intro b
          by_cases hb : b = a
          · subst hb
            simp [Nat.pos_of_ne_zero hw0]
          · simpa [hb] using hwt b
    | delegate c d =>
      obtain ⟨-, -, -, -, -, -, hva, -, -, -, -, hfields⟩ := delegate_ok_shape hstep
      refine ⟨by rw [hva]; exact hnd, ?_, ?_⟩
      · intro b
        rw [hva, (hfields b).1]
        exact hmem b
      · intro b hbw
        rw [(hfields b).2.1]
        exact hwt b (by rw [← (hfields b).1]; exact hbw)
    | removeDelegate c =>
      obtain ⟨-, -, -, -, -, -, hva, -, -, -, -, hfields⟩ :=
        removeDelegate_ok_shape hstep
      refine ⟨by rw [hva]; exact hnd, ?_, ?_⟩
      · intro b
        rw [hva, (hfields b).1]
        exact hmem b
      · intro b hbw
        rw [(hfields b).2.1]
        exact hwt b (by rw [← (hfields b).1]; exact hbw)
    | vote c p n =>
      obtain ⟨-, -, -, -, -, -, -, -, -, -, hva, -, -, -, -, hvc, hother, -⟩ :=
        vote_ok_shape hstep
      refine ⟨by rw [hva]; exact hnd, ?_, ?_⟩
      · intro b
        rw [hva]
        by_cases hb : b = c
        · subst hb
          rw [hvc]
          exact hmem b
        · rw [hother b hb]
          exact hmem b
      · intro b hbw
        by_cases hb : b = c
        · subst hb
          rw [hvc] at hbw ⊢
          exact hwt b hbw
        · rw [hother b hb] at hbw ⊢
          exact hwt b hbw

lemma winnerLoop_invariant :
    ∀ (rest pre : List Proposal) (h win : Nat) (pw : Proposal),
      pre[win]? = some pw → pw.voteCount = h →
      (∀ (j : Nat) (q : Proposal), pre[j]? = some q → q.voteCount ≤ h) →
      (∀ (j : Nat) (q : Proposal), j < win → pre[j]? = some q → q.voteCount < h) →
      ∃ pr : Proposal,
        (pre ++ rest)[winnerLoop rest pre.length h win]? = some pr ∧
        (∀ (j : Nat) (q : Proposal), (pre ++ rest)[j]? = some q → q.voteCount ≤ pr.voteCount) ∧
        (∀ (j : Nat) (q : Proposal), j < winnerLoop rest pre.length h win →
          (pre ++ rest)[j]? = some q → q.voteCount < pr.voteCount) := by
  intro rest
  induction rest with
  | nil =>
    intro pre h win pw hget hval hmax hstrict
    refine ⟨pw, ?_, ?_, ?_⟩
    · simpa [winnerLoop] using hget
    · intro j q hq
      rw [List.append_nil] at hq
      exact (hval ▸ hmax j q hq)
    · intro j q hj hq
      rw [List.append_nil] at hq
      simp only [winnerLoop] at hj
      exact (hval ▸ hstrict j q hj hq)
  | cons p rest ih =>
    intro pre h win pw hget hval hmax hstrict
    have hwin : win < pre.length := (List.getElem?_eq_some.mp hget).1
    have happ : pre ++ p :: rest = (pre ++ [p]) ++ rest := by simp
    have hlen : pre.length + 1 = (pre ++ [p]).length := by simp
    simp only [winnerLoop]
    split
    · next hup =>
      -- p strictly beats the running maximum: the scan restarts at index
      -- `pre.length` with value `p.voteCount`.
      rw [happ, hlen]
      refine ih (pre ++ [p]) p.voteCount pre.length p ?_ rfl ?_ ?_
      · exact List.getElem?_concat_length pre p
      · intro j q hq
        rcases lt_trichotomy j pre.length with hj | hj | hj
        · rw [List.getElem?_append_left hj] at hq
          exact le_of_lt (lt_of_le_of_lt (hmax j q hq) hup)
        · subst hj
          rw [List.getElem?_concat_length] at hq
          injection hq with hq
          subst hq
          exact le_refl _
        · rw [List.getElem?_eq_none (by simpa using hj)] at hq
          exact absurd hq (fun x => Option.noConfusion x)
      · intro j q hj hq
        rw [List.getElem?_append_left hj] at hq
        exact lt_of_le_of_lt (hmax j q hq) hup
    · next hup =>
      -- p does not beat the maximum: the carried pair survives.
      rw [happ, hlen]
      refine ih (pre ++ [p]) h win pw ?_ hval ?_ ?_
      · rwa [List.getElem?_append_left hwin]
      · intro j q hq
        rcases lt_trichotomy j pre.length with hj | hj | hj
        · rw [List.getElem?_append_left hj] at hq
          exact hmax j q hq
        · subst hj
          rw [List.getElem?_concat_length] at hq
          injection hq with hq
          subst hq
          omega
        · rw [List.getElem?_eq_none (by simpa using hj)] at hq
          exact absurd hq (fun x => Option.noConfusion x)
      · intro j q hj hq
        have hjpre : j < pre.length := lt_trans hj hwin
        rw [List.getElem?_append_left hjpre] at hq
        exact hstrict j q hj hq

/-- `_calculateWinner` returns an index of a proposal holding the maximum
`voteCount`, and every strictly earlier index holds strictly fewer votes
(earliest-index tie-break). -/
lemma _calculateWinner_spec (l : List Proposal) (hne : l ≠ []) :
    ∃ pr : Proposal, l[_calculateWinner l]? = some pr ∧
      (∀ (j : Nat) (q : Proposal), l[j]? = some q → q.voteCount ≤ pr.voteCount) ∧
      (∀ (j : Nat) (q : Proposal), j < _calculateWinner l → l[j]? = some q →
        q.voteCount < pr.voteCount) := by
  match l with
  | [] => exact absurd rfl hne
  | p :: rest =>
    unfold _calculateWinner
    simp only [winnerLoop]
    split
    · next hup =>
      have h0 : ([p] : List Proposal) ++ rest = p :: rest := by simp
      have hmax1 : ∀ (j : Nat) (q : Proposal),
          ([p] : List Proposal)[j]? = some q → q.voteCount ≤ p.voteCount := by
        intro j q hq
        match j, hq with
        | 0, hq =>
          injection hq with hq
          subst hq
          exact le_refl _
        | j + 1, hq => exact absurd hq (fun x => Option.noConfusion x)
      have hstrict1 : ∀ (j : Nat) (q : Proposal), j < 0 →
          ([p] : List Proposal)[j]? = some q → q.voteCount < p.voteCount :=
        fun j q hj _ => absurd hj (Nat.not_lt_zero j)
      have hinv := winnerLoop_invariant rest [p] p.voteCount 0 p (by simp) rfl
        hmax1 hstrict1
      simpa [h0] using hinv
    · next hup =>
      have hv0 : p.voteCount = 0 := by simpa using hup
      have h0 : ([p] : List Proposal) ++ rest = p :: rest := by simp
      have hmax1 : ∀ (j : Nat) (q : Proposal),
          ([p] : List Proposal)[j]? = some q → q.voteCount ≤ 0 := by
        intro j q hq
        match j, hq with
        | 0, hq =>
          injection hq with hq
          subst hq
          simp [hv0]
        | j + 1, hq => exact absurd hq (fun x => Option.noConfusion x)
      have hstrict1 : ∀ (j : Nat) (q : Proposal), j < 0 →
          ([p] : List Proposal)[j]? = some q → q.voteCount < 0 :=
        fun j q hj _ => absurd hj (Nat.not_lt_zero j)
      have hinv := winnerLoop_invariant rest [p] 0 0 p (by simp) hv0
        hmax1 hstrict1
      simpa [h0] using hinv

/-- Claim C2 (refuted on the code): after the successful operation sequence
deploy, whitelist 2 (weight 4), whitelist 3 (weight 9), voter 2 delegates to
voter 3, re-whitelist 2 (weight 5) — a state reachable entirely through
successful operations — voter 3's `delegatedWeight` is still 4 while no
voter's `delegate` field points at 3 (the sum of delegating weights is 0):
re-whitelisting resets the delegator's edge without repairing the target's
counter, violating the invariant. -/
theorem C2_rewhitelist_breaks_accounting :
    (c2trace.map fun s =>
        ((s.voters 3).delegatedWeight, delegatedSum s 3,
         (s.voters 2).delegate, (s.voters 3).delegate)) =
      .ok (4, 0, 0, 0) ∧ (4 : Nat) ≠ 0 :=
  ⟨rfl, by decide⟩

/-- Claim C3 (counterexample): after a successful vote by voter 2, a second
`vote` with the out-of-range proposal id 1 fails with `InvalidProposal`,
not `AlreadyVoted` — the proposal-id check precedes the already-voted
check. -/
theorem C3_counterexample :
    c3trace.isOk = true ∧
    (c3trace.bind fun s => vote s 2 1 10) = .error .InvalidProposal ∧
    Err.InvalidProposal ≠ Err.AlreadyVoted :=
  ⟨rfl, rfl, by decide⟩

/-- Claim C3 as amended: after a successful `vote`, no later `vote` by the
same identity can ever succeed again (across any sequence of successful
operations), so no state is ever changed by such an attempt; when the
window and pause guards pass, the error is `AlreadyVoted` for a valid
proposal id and `InvalidProposal` for an out-of-range one. -/
theorem C3_no_second_vote (s s' : State) (a p t : Nat)
    (hvote : vote s a p t = .ok s') :
    (∀ s2, ReachableFrom s' s2 → ∀ q t2, ¬ ∃ s3, vote s2 a q t2 = .ok s3) ∧
    (∀ q t2, s'.votingStartTime ≤ t2 → t2 ≤ s'.votingEndTime →
      s'.paused = false →
      (q < s'.proposals.length → vote s' a q t2 = .error .AlreadyVoted) ∧
      (s'.proposals.length ≤ q → vote s' a q t2 = .error .InvalidProposal)) := by
  obtain ⟨hph, -, -, -, -, hwl, -, -, -, hphp, -, -, -, -, -, hvc, -, -, -, -⟩ :=
    vote_ok_shape hvote
  have hph' : s'.phase = .Voting := hphp.trans hph
  have hvoted : (s'.voters a).voted = true := by rw [hvc]
  have hwl' : (s'.voters a).whitelisted = true := by rw [hvc]; exact hwl
  constructor
  · intro s2 hr q t2
    have hkeep := reachableFrom_preserves_voted hr (by rw [hph']; simp) hvoted
    exact vote_not_ok_of_voted hkeep.2 q t2
  · intro q t2 h1 h2 h3
    exact vote_err_of_voted hph' hvoted h1 h2 h3 hwl' q

/-- Witness for C3: in the concrete post-vote state, a second vote with the
invalid id 1 fails with `InvalidProposal` and with the valid id 0 fails
with `AlreadyVoted`. -/
theorem C3_witness :
    vote c3sVoted 2 1 10 = .error .InvalidProposal ∧
    vote c3sVoted 2 0 10 = .error .AlreadyVoted := by
  have h := C3_no_second_vote c3s c3sVoted 2 0 10 rfl
  have h1 := h.2 1 10 (by decide) (by decide) rfl
  have h0 := h.2 0 10 (by decide) (by decide) rfl
  exact ⟨h1.2 (by decide), h0.1 (by decide)⟩

/-- Claim C4: under the open voting window, for a whitelisted, not-yet-voted
caller: an outgoing delegation makes `vote` fail with `Delegated`; with no
delegation, the total power `T = weight + delegatedWeight` is read at call
time, `T = 0` fails with `NoVotingPower`, and otherwise the call succeeds,
marks the voter as voted with `votedProposalId = p`, adds `⌊√T⌋` to the
proposal's `quadraticVotes` tally and `T` to its `rawVotes` tally, leaving
every other voter and proposal untouched. -/
theorem C4_vote_semantics (s : State) (c p n : Nat)
    (hph : s.phase = .Voting) (hn1 : s.votingStartTime ≤ n)
    (hn2 : n ≤ s.votingEndTime) (hpau : s.paused = false)
    (hp : p < s.proposals.length) (hwl : (s.voters c).whitelisted = true)
    (hv : (s.voters c).voted = false) :
    ((s.voters c).delegate ≠ 0 → vote s c p n = .error .Delegated) ∧
    ((s.voters c).delegate = 0 →
      ((s.voters c).weight + (s.voters c).delegatedWeight = 0 →
        vote s c p n = .error .NoVotingPower) ∧
      ((s.voters c).weight + (s.voters c).delegatedWeight ≠ 0 →
        ∃ (s' : State) (q : Proposal), vote s c p n = .ok s' ∧
          s.proposals[p]? = some q ∧
          s'.voters c = { s.voters c with voted := true, votedProposalId := p } ∧
          s'.proposals[p]? = some { q with
            voteCount := q.voteCount +
              Nat.sqrt ((s.voters c).weight + (s.voters c).delegatedWeight),
            rawVoteCount := q.rawVoteCount +
              ((s.voters c).weight + (s.voters c).delegatedWeight) } ∧
          (∀ a, a ≠ c → s'.voters a = s.voters a) ∧
          (∀ j, j ≠ p → s'.proposals[j]? = s.proposals[j]?) ∧
          s'.phase = s.phase ∧ s'.voterAddresses = s.voterAddresses ∧
          s'.paused = s.paused)) := by
  refine ⟨?_, fun hd => ⟨?_, ?_⟩⟩
  · intro hd
    simp only [vote]
    split_ifs <;>
      first
        | (simp_all
           done)
        | omega
        | simp_all
  · intro hT
    simp only [vote]
    split_ifs <;>
      first
        | (simp_all
           done)
        | omega
        | simp_all
  · intro hT
    obtain ⟨s', hok⟩ := vote_succeeds hph hn1 hn2 hpau hp hwl hv hd hT
    obtain ⟨-, -, -, -, -, -, -, -, -, hphase, hva, -, hpau', -, -, hvc, hother,
            -, hj, hset⟩ := vote_ok_shape hok
    have hq : s.proposals[p]? = some (s.proposals.get ⟨p, hp⟩) :=
      List.getElem?_eq_getElem hp
    have hset' := hset _ hq
    rw [calculateQuadraticVotes_eq_sqrt] at hset'
    exact ⟨s', s.proposals.get ⟨p, hp⟩, hok, hq, hvc, hset', hother, hj,
           hphase, hva, hpau'⟩

/-- Witness for C4: in the concrete `Voting` state `c4s`, voter 2 has no
delegation and weight 1, and the vote succeeds. -/
theorem C4_witness :
    (c4s.voters 2).delegate = 0 ∧ (vote c4s 2 0 5).isOk = true := by
  have h := C4_vote_semantics c4s 2 0 5 rfl (by decide) (by decide) rfl
    (by decide) (by decide) (by decide)
  obtain ⟨s', q, hok, -⟩ := (h.2 (by decide)).2 (by decide)
  exact ⟨by decide, by rw [hok]; rfl⟩

/-- Claim C5: the phase (an element of the three-valued `Phase` enum) is
monotone under every successful operation; `Setup → Voting` happens only
through `startVoting` and `Voting → Finished` only through `closeVoting` or
`finalizeIfExpired`; and once `Finished`, every successful operation leaves
the phase, the proposal tallies and the voter records unchanged (only the
pause flag can still be toggled). -/
theorem C5_phase_monotone :
    (∀ (s s' : State) (op : Op), step s op = .ok s' →
       phaseIdx s.phase ≤ phaseIdx s'.phase) ∧
    (∀ (s s' : State) (op : Op), step s op = .ok s' →
       s.phase = .Setup → s'.phase = .Voting →
       ∃ c d n, op = .startVoting c d n) ∧
    (∀ (s s' : State) (op : Op), step s op = .ok s' →
       s.phase = .Voting → s'.phase = .Finished →
       (∃ c, op = .closeVoting c) ∨ (∃ c n, op = .finalizeIfExpired c n)) ∧
    (∀ (s s' : State) (op : Op), s.phase = .Finished → step s op = .ok s' →
       s'.phase = .Finished ∧ s'.proposals = s.proposals ∧
       s'.voters = s.voters) :=
  ⟨fun _ _ _ h => step_phase_mono h,
   fun _ _ _ h h1 h2 => step_setup_to_voting h h1 h2,
   fun _ _ _ h h1 h2 => step_voting_to_finished h h1 h2,
   fun _ _ _ h1 h =>
     ⟨(step_finished_frozen h1 h).1, (step_finished_frozen h1 h).2.1,
      (step_finished_frozen h1 h).2.2.1⟩⟩

/-- Witness for C5: pausing the `Finished` state `c5s` keeps the phase and
the proposal list frozen. -/
theorem C5_witness :
    phaseIdx c5s.phase ≤ phaseIdx ({ c5s with paused := true } : State).phase ∧
    ({ c5s with paused := true } : State).proposals = c5s.proposals := by
  have h : step c5s (.pauseElection 1) = .ok { c5s with paused := true } := rfl
  exact ⟨C5_phase_monotone.1 c5s _ _ h,
         (C5_phase_monotone.2.2.2 c5s _ _ rfl h).2.1⟩

/-- Claim C6: `_calculateWinner` is a deterministic scan returning the
smallest index attaining the maximum `quadraticVotes` (strictly-greater
comparison, earliest-index tie-break); on an all-zero tally list it returns
index 0; on tallies `[5, 5, 3]` and `[0, 0, 0]` it returns 0; and from a
`Finished` state every successful operation leaves the recomputed winner
(and `winningProposal`) unchanged. -/
theorem C6_winner_deterministic_scan :
    (∀ l : List Proposal, l ≠ [] →
       ∃ pr : Proposal, l[_calculateWinner l]? = some pr ∧
         (∀ (j : Nat) (q : Proposal), l[j]? = some q →
            q.voteCount ≤ pr.voteCount) ∧
         (∀ (j : Nat) (q : Proposal), j < _calculateWinner l → l[j]? = some q →
            q.voteCount < pr.voteCount)) ∧
    (∀ l : List Proposal,
       (∀ (j : Nat) (q : Proposal), l[j]? = some q → q.voteCount = 0) →
       _calculateWinner l = 0) ∧
    _calculateWinner [{ title := "A", description := "", voteCount := 5, rawVoteCount := 0 },
                      { title := "B", description := "", voteCount := 5, rawVoteCount := 0 },
                      { title := "C", description := "", voteCount := 3, rawVoteCount := 0 }] = 0 ∧
    _calculateWinner [{ title := "A", description := "", voteCount := 0, rawVoteCount := 0 },
                      { title := "B", description := "", voteCount := 0, rawVoteCount := 0 },
                      { title := "C", description := "", voteCount := 0, rawVoteCount := 0 }] = 0 ∧
    (∀ (s s' : State) (op : Op), s.phase = .Finished → step s op = .ok s' →
       _calculateWinner s'.proposals = _calculateWinner s.proposals ∧
       winningProposal s' = winningProposal s) := by
  refine ⟨_calculateWinner_spec, ?_, rfl, rfl, ?_⟩
  · intro l hz
    cases l with
    | nil => rfl
    | cons p rest =>
      by_contra h0
      obtain ⟨pr, hpr, hmax, hstrict⟩ := _calculateWinner_spec (p :: rest) (by simp)
      have hp0 : (p :: rest)[0]? = some p := by simp
      have hlt := hstrict 0 p (Nat.pos_of_ne_zero h0) hp0
      have h1 := hz _ _ hpr
      have h2 := hz 0 p hp0
      omega
  · intro s s' op hf h
    obtain ⟨hph, hprop, -, -, -⟩ := step_finished_frozen hf h
    refine ⟨by rw [hprop], ?_⟩
    unfold winningProposal
    rw [hprop, hph, hf]

/-- Witness for C6: pausing the `Finished` state `c6s` (tallies `[5, 5, 3]`)
does not change the recomputed winner. -/
theorem C6_witness :
    _calculateWinner ({ c6s with paused := true } : State).proposals =
      _calculateWinner c6s.proposals :=
  (C6_winner_deterministic_scan.2.2.2.2 c6s { c6s with paused := true }
    (.pauseElection 1) rfl rfl).1

/-- Claim C7 (counterexample): in a paused `Setup` state, `vote` by a
whitelisted voter fails with `VotingNotActive`, not `Paused` — the
`votingOpen` modifier runs before `whenNotPaused`. -/
theorem C7_counterexample :
    (c7trace.map fun s => s.paused) = .ok true ∧
    (c7trace.bind fun s => vote s 2 0 5) = .error .VotingNotActive ∧
    Err.VotingNotActive ≠ Err.Paused :=
  ⟨rfl, rfl, by decide⟩

/-- Claim C7 as amended: while paused, none of the eight mutating operations
can succeed (so no state changes); whenever the operation's preceding
authorization and phase/window guards pass, the error is exactly `Paused`;
`pauseElection` itself fails while already paused; `resumeElection` by the
admin succeeds and only clears the flag; both toggles fail with
`Unauthorized` for non-admin callers; and the read-only projections ignore
the flag entirely. -/
theorem C7_paused_blocks (s : State) (hp : s.paused = true) :
    (∀ c t d, ¬ ∃ s', addProposal s c t d = .ok s') ∧
    (∀ c a w, ¬ ∃ s', whitelistVoter s c a w = .ok s') ∧
    (∀ c d n, ¬ ∃ s', startVoting s c d n = .ok s') ∧
    (∀ c, ¬ ∃ s', closeVoting s c = .ok s') ∧
    (∀ c n, ¬ ∃ s', finalizeIfExpired s c n = .ok s') ∧
    (∀ c d, ¬ ∃ s', delegate s c d = .ok s') ∧
    (∀ c, ¬ ∃ s', removeDelegate s c = .ok s') ∧
    (∀ c p n, ¬ ∃ s', vote s c p n = .ok s') ∧
    (∀ t d, s.phase = .Setup → addProposal s s.admin t d = .error .Paused) ∧
    (∀ a w, s.phase = .Setup → whitelistVoter s s.admin a w = .error .Paused) ∧
    (∀ d n, s.phase = .Setup → startVoting s s.admin d n = .error .Paused) ∧
    (s.phase = .Voting → closeVoting s s.admin = .error .Paused) ∧
    (∀ c n, s.phase = .Voting → finalizeIfExpired s c n = .error .Paused) ∧
    (∀ c d, s.phase = .Setup → delegate s c d = .error .Paused) ∧
    (∀ c, s.phase = .Setup → removeDelegate s c = .error .Paused) ∧
    (∀ c p n, s.phase = .Voting → s.votingStartTime ≤ n → n ≤ s.votingEndTime →
       vote s c p n = .error .Paused) ∧
    (pauseElection s s.admin = .error .Paused) ∧
    (∀ c, c ≠ s.admin → pauseElection s c = .error .Unauthorized) ∧
    (resumeElection s s.admin = .ok { s with paused := false }) ∧
    (∀ c, c ≠ s.admin → resumeElection s c = .error .Unauthorized) ∧
    (∀ b : Bool, winningProposal { s with paused := b } = winningProposal s ∧
       getVoterCount { s with paused := b } = getVoterCount s) := by
  refine ⟨?_, ?_, ?_, ?_, ?_, ?_, ?_, ?_, ?_, ?_, ?_, ?_, ?_, ?_, ?_, ?_,
          ?_, ?_, ?_, ?_, fun b => ⟨rfl, rfl⟩⟩
  · rintro c t d ⟨s', h⟩
    have := (addProposal_ok_iff.mp h).2.2.1
    simp_all
  · rintro c a w ⟨s', h⟩
    have := (whitelistVoter_ok_iff.mp h).2.2.1
    simp_all
  · rintro c d n ⟨s', h⟩
    have := (startVoting_ok_iff.mp h).2.2.1
    simp_all
  · rintro c ⟨s', h⟩
    have := (closeVoting_ok_iff.mp h).2.2.1
    simp_all
  · rintro c n ⟨s', h⟩
    have := ((@finalizeIfExpired_ok_iff s s' c n).mp h).2.1
    simp_all
  · rintro c d ⟨s', h⟩
    have := (delegate_ok_shape h).2.1
    simp_all
  · rintro c ⟨s', h⟩
    have := (removeDelegate_ok_shape h).2.1
    simp_all
  · rintro c p n ⟨s', h⟩
    have := (vote_ok_shape h).2.2.2.1
    simp_all
  · intro t d hph
    unfold addProposal
    split_ifs <;> simp_all
  · intro a w hph
    unfold whitelistVoter
    split_ifs <;> simp_all
  · intro d n hph
    unfold startVoting
    split_ifs <;> simp_all
  · intro hph
    unfold closeVoting
    split_ifs <;> simp_all
  · intro c n hph
    unfold finalizeIfExpired
    split_ifs <;> simp_all
  · intro c d hph
    simp only [delegate]
    split_ifs <;> simp_all
  · intro c hph
    simp only [removeDelegate]
    split_ifs <;> simp_all
  · intro c p n hph hn1 hn2
    simp only [vote]
    split_ifs <;>
      first
        | (simp_all
           done)
        | omega
        | simp_all
  · unfold pauseElection
    split_ifs <;> simp_all
  · intro c hc
    unfold pauseElection
    split_ifs <;> simp_all
  · unfold resumeElection
    split_ifs <;> simp_all
  · intro c hc
    unfold resumeElection
    split_ifs <;> simp_all

/-- Witness for C7: in the concrete paused `Voting` state `c7s`, a vote in
the open window fails with `Paused`, and the admin's `resumeElection`
succeeds and only clears the flag. -/
theorem C7_witness :
    vote c7s 2 0 5 = .error .Paused ∧
    resumeElection c7s 1 = .ok { c7s with paused := false } := by
  have h := C7_paused_blocks c7s rfl
  exact ⟨h.2.2.2.2.2.2.2.2.2.2.2.2.2.2.2.1 2 0 5 rfl (by decide) (by decide),
         h.2.2.2.2.2.2.2.2.2.2.2.2.2.2.2.2.2.2.1⟩

/-- Claim C8: `startVoting(d)` at time `now` succeeds exactly when the
caller is the admin, the phase is `Setup`, the engine is not paused, there
is at least one proposal, the tracked voter list is non-empty and `d > 0`;
on success the only changes are `phase := Voting`,
`votingStartTime := now` and `votingEndTime := now + d minutes`. In every
reachable state a non-empty tracked voter list is the same as having at
least one whitelisted voter. -/
theorem C8_startVoting_spec :
    (∀ (s s' : State) (c d n : Nat),
       startVoting s c d n = .ok s' ↔
         c = s.admin ∧ s.phase = .Setup ∧ s.paused = false ∧
         s.proposals.length ≠ 0 ∧ s.voterAddresses.length ≠ 0 ∧ d ≠ 0 ∧
         s' = { s with phase := .Voting, votingStartTime := n,
                       votingEndTime := n + d * 60 }) ∧
    (∀ s : State, Reachable s →
       (s.voterAddresses.length ≠ 0 ↔
         ∃ a, a ∈ s.voterAddresses ∧ (s.voters a).whitelisted = true)) := by
  refine ⟨fun s s' c d n => startVoting_ok_iff, ?_⟩
  intro s hr
  obtain ⟨-, hmem, -⟩ := reachable_whitelistInv hr
  constructor
  · intro hlen
    have hne : s.voterAddresses ≠ [] := fun hh => hlen (by rw [hh]; rfl)
    obtain ⟨a, ha⟩ := List.exists_mem_of_ne_nil _ hne
    exact ⟨a, ha, (hmem a).mp ha⟩
  · rintro ⟨a, ha, -⟩ hlen
    rw [List.length_eq_zero] at hlen
    rw [hlen] at ha
    exact absurd ha (List.not_mem_nil a)

/-- Witness for C8: in the concrete `Setup` state `c8s`,
`startVoting 10` at time 0 succeeds and sets the window to `0 .. 600`. -/
theorem C8_witness :
    startVoting c8s 1 10 0 =
      .ok { c8s with phase := .Voting, votingStartTime := 0,
                     votingEndTime := 0 + 10 * 60 } :=
  (C8_startVoting_spec.1 c8s _ 1 10 0).mpr
    ⟨rfl, rfl, rfl, by decide, by decide, by decide, rfl⟩

/-- Claim C9: in every reachable state, a whitelisted voter has positive
weight and hence positive total power, so the `NoVotingPower` branch of
`vote` is unreachable: `vote` never returns that error. -/
theorem C9_noVotingPower_unreachable (s : State) (hr : Reachable s) :
    (∀ a, (s.voters a).whitelisted = true →
       0 < (s.voters a).weight + (s.voters a).delegatedWeight) ∧
    (∀ a p n, vote s a p n ≠ .error .NoVotingPower) := by
  obtain ⟨-, -, hwt⟩ := reachable_whitelistInv hr
  refine ⟨?_, ?_⟩
  · intro a hwla
    have := hwt a hwla
    omega
  · intro a p n hcontra
    obtain ⟨hwla, hT⟩ := vote_noVotingPower_shape hcontra
    have := hwt a hwla
    omega

/-- Witness for C9: in the freshly deployed state, no `vote` call returns
`NoVotingPower`. -/
theorem C9_witness : vote c9s 2 0 0 ≠ .error .NoVotingPower :=
  (C9_noVotingPower_unreachable c9s
    (Reachable.init 1 "E" ["P"] c9s rfl)).2 2 0 0

/-- Claim C10: in every reachable state the tracked voter-address list has
no duplicates and contains exactly the whitelisted addresses (so
`getVoterCount` counts the distinct addresses ever whitelisted, since
whitelisting is never revoked), and re-whitelisting an already-whitelisted
address leaves `getVoterCount` unchanged. -/
theorem C10_voterCount_distinct (s : State) (hr : Reachable s) :
    s.voterAddresses.Nodup ∧
    (∀ a, a ∈ s.voterAddresses ↔ (s.voters a).whitelisted = true) ∧
    (∀ (c a w : Nat) (s' : State), (s.voters a).whitelisted = true →
       whitelistVoter s c a w = .ok s' →
       getVoterCount s' = getVoterCount s) := by
  obtain ⟨hnd, hmem, -⟩ := reachable_whitelistInv hr
  refine ⟨hnd, hmem, ?_⟩
  intro c a w s' hwla hok
  obtain ⟨-, -, -, -, -, -, rfl⟩ := whitelistVoter_ok_iff.mp hok
  unfold getVoterCount
  simp [hwla]

/-- Witness for C10: re-whitelisting voter 2 (already whitelisted in the
reachable state `c10b`) leaves the voter count unchanged. -/
theorem C10_witness : getVoterCount c10c = getVoterCount c10b := by
  have hr : Reachable c10b :=
    Reachable.step c10a c10b (.whitelistVoter 1 2 5)
      (Reachable.init 1 "E" ["P"] c10a rfl) rfl
  exact (C10_voterCount_distinct c10b hr).2.2 1 2 7 c10c (by decide) rfl

end GovernanceVoting
